import Mathlib

/-!
Verification of the Lanczos image-resize engine of `video-processor`
(`internal/resize/resize.go` and `internal/filters/filter.go`).

The Go code computes with `float64`; this development embeds that arithmetic
over the exact fields ℚ (for the purely rational index geometry: scale,
center, support, truncations and clamps) and ℝ (for the transcendental
kernel values and the weighted accumulation).  Go's `int(x)` conversion
truncates toward zero; it is modelled by `goInt`.  All cited line numbers
refer to `internal/resize/resize.go` unless stated otherwise.
-/

namespace VideoProcessor

/-- Go's `int(x)` conversion for a real-valued `x`: truncation toward zero. -/
def goInt (x : ℚ) : ℤ := if 0 ≤ x then ⌊x⌋ else ⌈x⌉

/-- `scale := float64(srcSize) / float64(dstSize)` (resize.go line 231). -/
def scaleQ (srcSize dstSize : ℤ) : ℚ := (srcSize : ℚ) / (dstSize : ℚ)

/-- `support := filterRadius; if scale > 1.0 { support *= scale }`
(resize.go lines 240-243).  The only `filters.Resampler` in the repository is
`filters.Lanczos`, so `filterRadius` is the integer Lanczos radius. -/
def supportQ (srcSize dstSize radius : ℤ) : ℚ :=
  if 1 < scaleQ srcSize dstSize then (radius : ℚ) * scaleQ srcSize dstSize else (radius : ℚ)

/-- `weightsPerPixel := int(2*support) + 1` (resize.go line 246). -/
def weightsPerPixel (srcSize dstSize radius : ℤ) : ℤ :=
  goInt (2 * supportQ srcSize dstSize radius) + 1

/-- `center := (float64(dstIdx)+0.5)*scale - 0.5` (resize.go line 251). -/
def centerQ (srcSize dstSize dstIdx : ℤ) : ℚ :=
  ((dstIdx : ℚ) + 1/2) * scaleQ srcSize dstSize - 1/2

/-- `left := int(center - support); if left < 0 { left = 0 }`
(resize.go lines 254, 258-260). -/
def leftIdx (srcSize dstSize radius dstIdx : ℤ) : ℤ :=
  max 0 (goInt (centerQ srcSize dstSize dstIdx - supportQ srcSize dstSize radius))

/-- `right := int(center + support); if right >= srcSize { right = srcSize - 1 }`
(resize.go lines 255, 261-263). -/
def rightIdx (srcSize dstSize radius dstIdx : ℤ) : ℤ :=
  if srcSize ≤ goInt (centerQ srcSize dstSize dstIdx + supportQ srcSize dstSize radius)
  then srcSize - 1
  else goInt (centerQ srcSize dstSize dstIdx + supportQ srcSize dstSize radius)

/-- Number of iterations of `for srcIdx := left; srcIdx <= right; srcIdx++`
(resize.go line 272), i.e. the size of the clipped contributing range. -/
def contribCount (srcSize dstSize radius dstIdx : ℤ) : ℤ :=
  rightIdx srcSize dstSize radius dstIdx - leftIdx srcSize dstSize radius dstIdx + 1

/-- The per-destination weight store `weights[dstIdx][weightIdx] = weight`
(resize.go line 286) runs `weightIdx` from `0` up to `contribCount - 1` while
the row only has `weightsPerPixel` slots; this predicate holds exactly when
the write index range exceeds the allocated row. -/
def rowOverflow (srcSize dstSize radius dstIdx : ℤ) : Bool :=
  weightsPerPixel srcSize dstSize radius < contribCount srcSize dstSize radius dstIdx

/-- Some destination index of `calculateWeights srcSize dstSize` drives its
store index past the allocated `weightsPerPixel` slots. -/
def calcOverflow (srcSize dstSize radius : ℤ) : Bool :=
  (List.range dstSize.toNat).any (fun d : ℕ => rowOverflow srcSize dstSize radius (d : ℤ))

/-- The axis resamplers guard their read loop with
`srcY <= right && weightIdx < len(pixelWeights)` (resize.go line 85), so a
pass performs `min contribCount weightsPerPixel` reads per destination index. -/
def iterCount (srcSize dstSize radius dstIdx : ℤ) : ℤ :=
  min (contribCount srcSize dstSize radius dstIdx) (weightsPerPixel srcSize dstSize radius)

/-- The source indices actually visited by the resampler read loop of
`resizeVertical`/`resizeHorizontal` (resize.go lines 85-97 and 177-189)
for one destination index: `left, left+1, ...`, bounded by the loop guard. -/
def readIndices (srcSize dstSize radius dstIdx : ℤ) : List ℤ :=
  (List.range (iterCount srcSize dstSize radius dstIdx).toNat).map
    (fun i : ℕ => leftIdx srcSize dstSize radius dstIdx + (i : ℤ))

/-- Spec 4.2: `left = floor(center - support)` "clamped into `[0, sourceLen - 1]`". -/
def specLeft (srcSize dstSize radius dstIdx : ℤ) : ℤ :=
  max 0 (min (srcSize - 1)
    ⌊centerQ srcSize dstSize dstIdx - supportQ srcSize dstSize radius⌋)

/-- Spec 4.2: `right = floor(center + support)` "clamped into `[0, sourceLen - 1]`". -/
def specRight (srcSize dstSize radius dstIdx : ℤ) : ℤ :=
  max 0 (min (srcSize - 1)
    ⌊centerQ srcSize dstSize dstIdx + supportQ srcSize dstSize radius⌋)

/-- Spec 4.2: `support = radius` if `scale <= 1.0`, else `radius * scale`. -/
def specSupport (srcSize dstSize radius : ℤ) : ℚ :=
  if scaleQ srcSize dstSize ≤ 1 then (radius : ℚ)
  else (radius : ℚ) * scaleQ srcSize dstSize

noncomputable section

open Real

/-- `sinc` (filter.go lines 9-14): `1` at `0`, else `sin(πv)/(πv)`. -/
def sinc (value : ℝ) : ℝ :=
  if value = 0 then 1 else Real.sin (Real.pi * value) / (Real.pi * value)

/-- `filters.Lanczos` (filter.go lines 16-18). -/
structure Lanczos where
  Radius : ℤ

/-- `Lanczos.Kernel` (filter.go lines 26-32): take `|value|`, then
`sinc(v) * sinc(v/Radius)` when `v < Radius`, else `0`. -/
def Lanczos.Kernel (l : Lanczos) (value : ℝ) : ℝ :=
  let v := |value|
  if v < (l.Radius : ℝ) then sinc v * sinc (v / (l.Radius : ℝ)) else 0

/-- The raw (unnormalized) weight computed for source index `srcIdx`
(resize.go lines 272-283): `distance := srcIdx - center`, then
`filter.Kernel(distance / scale)` when downsampling, else
`filter.Kernel(distance)`. -/
def rawWeight (srcSize dstSize radius dstIdx srcIdx : ℤ) : ℝ :=
  if 1 < scaleQ srcSize dstSize then
    (Lanczos.mk radius).Kernel
      (((srcIdx : ℝ) - ((centerQ srcSize dstSize dstIdx : ℚ) : ℝ)) /
        ((scaleQ srcSize dstSize : ℚ) : ℝ))
  else
    (Lanczos.mk radius).Kernel ((srcIdx : ℝ) - ((centerQ srcSize dstSize dstIdx : ℚ) : ℝ))

/-- `weightSum` accumulated over the contributing range (resize.go lines
269-290).  The Go code adds `weight` only under `if weight != 0`, which does
not change the sum, so the plain sum over the range is taken. -/
def weightSum (srcSize dstSize radius dstIdx : ℤ) : ℝ :=
  ((List.range (contribCount srcSize dstSize radius dstIdx).toNat).map
    (fun i : ℕ => rawWeight srcSize dstSize radius dstIdx
      (leftIdx srcSize dstSize radius dstIdx + (i : ℤ)))).sum

/-- The row `weights[dstIdx]` after the store loop (resize.go lines 266-290):
slot `i` holds the raw weight of source index `left + i` for `i` below the
range size and stays `0` otherwise.  (Storing only under `if weight != 0`
leaves the same values, since untouched slots already hold `0`.)  When the
range size exceeds `weightsPerPixel` the Go slice write is out of range —
see the overflow theorems; this model keeps the in-range slots. -/
def rawRow (srcSize dstSize radius dstIdx : ℤ) : List ℝ :=
  (List.range (weightsPerPixel srcSize dstSize radius).toNat).map
    (fun i : ℕ => if (i : ℤ) < contribCount srcSize dstSize radius dstIdx then
        rawWeight srcSize dstSize radius dstIdx
          (leftIdx srcSize dstSize radius dstIdx + (i : ℤ))
      else 0)

/-- The row after normalization (resize.go lines 293-297): every slot is
divided by `weightSum` when `weightSum > 0`, otherwise left untouched. -/
def weightRow (srcSize dstSize radius dstIdx : ℤ) : List ℝ :=
  if 0 < weightSum srcSize dstSize radius dstIdx then
    (rawRow srcSize dstSize radius dstIdx).map
      (fun w => w / weightSum srcSize dstSize radius dstIdx)
  else rawRow srcSize dstSize radius dstIdx

/-- `calculateWeights` (resize.go lines 225-301): `nil` when either size is
`<= 0`, else the per-destination table of normalized weight rows. -/
def calculateWeights (srcSize dstSize radius : ℤ) : Option (List (List ℝ)) :=
  if srcSize ≤ 0 ∨ dstSize ≤ 0 then none
  else some ((List.range dstSize.toNat).map
    (fun d : ℕ => weightRow srcSize dstSize radius (d : ℤ)))

end

/-- One pixel of the spec's raster data model (section 3): four channel
values (red, green, blue, alpha), each read through a 16-bit-precision
accessor — Go's `color.RGBA()` — regardless of storage depth. -/
structure Pixel where
  r : ℝ
  g : ℝ
  b : ℝ
  a : ℝ

/-- The raster data model (spec section 3): a width, a height, and the
per-coordinate channel accessor.  `image.NewNRGBA(image.Rect(0,0,w,h))`
rasters have bounds minimum `(0,0)`, which this model fixes throughout. -/
structure Raster where
  width : ℤ
  height : ℤ
  pixel : ℤ → ℤ → Pixel

/-- The error returns of the resize package (resize.go lines 17, 20, 58,
150), named as in spec section 7. -/
inductive ResizeError where
  | nilSource
  | invalidDimension
  | weightTableUnavailable
deriving DecidableEq, Repr

noncomputable section

/-- The clamp applied to each accumulated channel before the final write
(resize.go lines 99-119 and 191-211): below `0` becomes `0`, above `65535`
becomes `65535`. -/
def clampChannel (x : ℝ) : ℝ :=
  if x < 0 then 0 else if 65535 < x then 65535 else x

/-- One channel of the resampler accumulation loop (resize.go lines 84-97):
starting from `weightIdx = 0`, for each visited source index `s` add
`pixelWeights[weightIdx] * channel(s)`.  The `if weight != 0` guard only
skips terms that are `0`, so the plain sum is taken. -/
def convolve (srcSize dstSize radius dstIdx : ℤ) (row : List ℝ) (get : ℤ → ℝ) : ℝ :=
  ((readIndices srcSize dstSize radius dstIdx).map
    (fun s => row.getD (s - leftIdx srcSize dstSize radius dstIdx).toNat 0 * get s)).sum

/-- `resizeVertical` (resize.go lines 41-131): direct copy when the height
already matches, otherwise a Lanczos radius-3 weight table over the height
axis is built and every column is convolved, clamped and written. -/
def resizeVertical (src : Raster) (height : ℤ) : Except ResizeError Raster :=
  if src.height = height then
    Except.ok ⟨src.width, height, fun x y => src.pixel x y⟩
  else
    match calculateWeights src.height height 3 with
    | none => Except.error ResizeError.weightTableUnavailable
    | some table =>
      Except.ok ⟨src.width, height, fun x dstY =>
        let row := table.getD dstY.toNat []
        { r := clampChannel (convolve src.height height 3 dstY row (fun sy => (src.pixel x sy).r))
          g := clampChannel (convolve src.height height 3 dstY row (fun sy => (src.pixel x sy).g))
          b := clampChannel (convolve src.height height 3 dstY row (fun sy => (src.pixel x sy).b))
          a := clampChannel (convolve src.height height 3 dstY row (fun sy => (src.pixel x sy).a)) }⟩

/-- `resizeHorizontal` (resize.go lines 133-223): direct copy when the width
already matches, otherwise a Lanczos radius-3 weight table over the width
axis is built and every row is convolved, clamped and written. -/
def resizeHorizontal (src : Raster) (width : ℤ) : Except ResizeError Raster :=
  if src.width = width then
    Except.ok ⟨width, src.height, fun x y => src.pixel x y⟩
  else
    match calculateWeights src.width width 3 with
    | none => Except.error ResizeError.weightTableUnavailable
    | some table =>
      Except.ok ⟨width, src.height, fun dstX y =>
        let row := table.getD dstX.toNat []
        { r := clampChannel (convolve src.width width 3 dstX row (fun sx => (src.pixel sx y).r))
          g := clampChannel (convolve src.width width 3 dstX row (fun sx => (src.pixel sx y).g))
          b := clampChannel (convolve src.width width 3 dstX row (fun sx => (src.pixel sx y).b))
          a := clampChannel (convolve src.width width 3 dstX row (fun sx => (src.pixel sx y).a)) }⟩

/-- `Resize` (resize.go lines 12-39): nil check, dimension check, then the
pass structure — both axes differ: horizontal then vertical on the
intermediate; only the width differs: horizontal alone; otherwise vertical
alone (which degenerates to a copy when the height matches too). -/
def Resize (src : Option Raster) (width height : ℤ) : Except ResizeError Raster :=
  match src with
  | none => Except.error ResizeError.nilSource
  | some s =>
    if width ≤ 0 ∨ height ≤ 0 then Except.error ResizeError.invalidDimension
    else if s.width ≠ width ∧ s.height ≠ height then
      match resizeHorizontal s width with
      | Except.error e => Except.error e
      | Except.ok inter => resizeVertical inter height
    else if s.width ≠ width then resizeHorizontal s width
    else resizeVertical s height

end

/-- Whether a single axis pass builds a weight table whose store loop runs
out of the allocated row: the copy path (`srcLen = dstLen`) builds no table. -/
def passOverflow (srcLen dstLen radius : ℤ) : Bool :=
  if srcLen = dstLen then false else calcOverflow srcLen dstLen radius

/-- Whether some weight-table build performed by `Resize src width height`
drives a store index out of its allocated row, following the pass structure
of resize.go lines 26-38 (error paths build no further tables, but a pass
whose build overflows never returns, so the disjunction is faithful). -/
def resizeOverflows (src : Raster) (width height : ℤ) : Bool :=
  if width ≤ 0 ∨ height ≤ 0 then false
  else if src.width ≠ width ∧ src.height ≠ height then
    passOverflow src.width width 3 || passOverflow src.height height 3
  else if src.width ≠ width then passOverflow src.width width 3
  else passOverflow src.height height 3

/-- A concrete valid source raster, 13 wide and 5 tall, constant opaque black. -/
def raster13x5 : Raster := ⟨13, 5, fun _ _ => ⟨0, 0, 0, 65535⟩⟩

/-- A concrete valid 1-by-1 source raster. -/
def sampleRaster : Raster := ⟨1, 1, fun _ _ => ⟨1, 2, 3, 4⟩⟩

/-- Spec section 8, channel bounds: all four channel values lie in `[0, 65535]`. -/
def pixelInRange (p : Pixel) : Prop :=
  0 ≤ p.r ∧ p.r ≤ 65535 ∧ 0 ≤ p.g ∧ p.g ≤ 65535 ∧
  0 ≤ p.b ∧ p.b ≤ 65535 ∧ 0 ≤ p.a ∧ p.a ≤ 65535

/-!  Theorems.  Helper lemmas come first, then one theorem per claim
(`C1` to `C10`), each with a witness where the statement carries hypotheses. -/

/-- `sinc` does not vanish at a non-integer point. -/
theorem sinc_ne_zero {x : ℝ} (hx : x ≠ 0) (h : ∀ n : ℤ, (n : ℝ) ≠ x) : sinc x ≠ 0 := by
  rw [sinc, if_neg hx]
  refine div_ne_zero ?_ (mul_ne_zero Real.pi_ne_zero hx)
  intro hs
  rcases Real.sin_eq_zero_iff.mp hs with ⟨n, hn⟩
  rw [mul_comm Real.pi x] at hn
  exact h n (mul_right_cancel₀ Real.pi_ne_zero hn)

/-- `77/26` is not an integer. -/
theorem not_int_77_26 : ∀ n : ℤ, (n : ℝ) ≠ 77/26 := by
  intro n h
  have h26 : ((26 * n : ℤ) : ℝ) = 77 := by push_cast; rw [h]; ring
  have : (26 * n : ℤ) = 77 := by exact_mod_cast h26
  omega

/-- `77/78` is not an integer. -/
theorem not_int_77_78 : ∀ n : ℤ, (n : ℝ) ≠ 77/78 := by
  intro n h
  have h78 : ((78 * n : ℤ) : ℝ) = 77 := by push_cast; rw [h]; ring
  have : (78 * n : ℤ) = 77 := by exact_mod_cast h78
  omega

/-- The Lanczos radius-3 kernel does not vanish at `77/26`. -/
theorem kernel_77_26_ne_zero : (Lanczos.mk 3).Kernel ((77:ℝ)/26) ≠ 0 := by
  rw [Lanczos.Kernel]
  have habs : |(77:ℝ)/26| = 77/26 := abs_of_nonneg (by norm_num)
  simp only [habs]
  rw [if_pos (by norm_num)]
  have h1 : sinc ((77:ℝ)/26) ≠ 0 := sinc_ne_zero (by norm_num) not_int_77_26
  have h2 : sinc ((77:ℝ)/26 / (((3:ℤ) : ℝ))) ≠ 0 := by
    have h3 : (77:ℝ)/26 / (((3:ℤ) : ℝ)) = 77/78 := by norm_num
    rw [h3]
    exact sinc_ne_zero (by norm_num) not_int_77_78
  exact mul_ne_zero h1 h2

/-- The raw weight Go computes for destination index 3, source index 10 of a
13-to-8 axis shrink — the store that lands outside the allocated row — is
nonzero, so the out-of-range slice write `weights[3][10]` really executes. -/
theorem rawWeight_13_8_overflow_ne_zero : rawWeight 13 8 3 3 10 ≠ 0 := by
  rw [rawWeight]
  have hscale : scaleQ 13 8 = 13/8 := by norm_num [scaleQ]
  have hcenter : centerQ 13 8 3 = 83/16 := by norm_num [centerQ, scaleQ]
  rw [hscale, hcenter]
  rw [if_pos (by norm_num)]
  have harg : ((10:ℤ) : ℝ) - (((83:ℚ)/16 : ℚ) : ℝ) = 77/16 := by push_cast; norm_num
  have harg2 : ((77:ℝ)/16) / (((13:ℚ)/8 : ℚ) : ℝ) = 77/26 := by push_cast; norm_num
  rw [harg, harg2]
  exact kernel_77_26_ne_zero

/-- The weight-table build for a 13-to-8 axis shrink with the Lanczos
radius-3 kernel overflows its allocated rows. -/
theorem calcOverflow_13_8 : calcOverflow 13 8 3 = true := by
  rw [calcOverflow, List.any_eq_true]
  refine ⟨3, by decide, ?_⟩
  norm_num [rowOverflow, contribCount, rightIdx, leftIdx, centerQ, scaleQ, supportQ,
    goInt, weightsPerPixel]

/-- C1: the claim "for every non-nil source raster and every `w > 0`,
`h > 0`, `resize(src, w, h)` succeeds and returns a `w` by `h` raster" fails
on the code.  For the valid 13-by-5 source and target 8-by-5, `Resize` runs
the horizontal pass, whose `calculateWeights(13, 8, Lanczos{3})` drives its
store index past the allocated row (`resizeOverflows` is true on this input)
while the weight written there is nonzero, so the Go slice write
`weights[3][10]` indexes out of range and the call panics instead of
returning a raster. -/
theorem C1_resize_13x5_to_8x5_overflows :
    resizeOverflows raster13x5 8 5 = true ∧ rawWeight 13 8 3 3 10 ≠ 0 := by
  refine ⟨?_, rawWeight_13_8_overflow_ne_zero⟩
  simp [resizeOverflows, raster13x5, passOverflow, calcOverflow_13_8]

/-- C5: the claim "`right - left + 1` never exceeds
`weightsPerPixel = int(2*support) + 1`" fails on the code.  For
`calculateWeights(13, 8, Lanczos{3})` at destination index 3 the clipped
contributing range `[0, 10]` has 11 indices while the row only has 10 slots,
and the weight of the 11th store is nonzero, so the builder writes
`weights[3][10]` outside its allocated storage. -/
theorem C5_weight_store_exceeds_allocation :
    contribCount 13 8 3 3 = 11 ∧ weightsPerPixel 13 8 3 = 10 ∧
      weightsPerPixel 13 8 3 < contribCount 13 8 3 3 ∧ rawWeight 13 8 3 3 10 ≠ 0 := by
  refine ⟨?_, ?_, ?_, rawWeight_13_8_overflow_ne_zero⟩
  · norm_num [contribCount, rightIdx, leftIdx, centerQ, scaleQ, supportQ, goInt]
  · norm_num [weightsPerPixel, supportQ, scaleQ, goInt]
  · norm_num [contribCount, rightIdx, leftIdx, centerQ, scaleQ, supportQ, goInt,
      weightsPerPixel]

/-- C10: the Lanczos kernel of radius `R ≥ 1` evaluates to
`sinc(|v|) * sinc(|v|/R)` when `|v| < R` and to `0` when `|v| ≥ R`, with
`sinc(0) = 1` and `sinc(x) = sin(πx)/(πx)` otherwise; in particular it
returns `1` at `v = 0`.  Determinism is inherent: `Lanczos.Kernel` is a pure
function of its arguments. -/
theorem C10_lanczos_kernel_formula (R : ℤ) (hR : 1 ≤ R) :
    (∀ v : ℝ, |v| < (R : ℝ) →
      (Lanczos.mk R).Kernel v = sinc |v| * sinc (|v| / (R : ℝ))) ∧
    (∀ v : ℝ, (R : ℝ) ≤ |v| → (Lanczos.mk R).Kernel v = 0) ∧
    (Lanczos.mk R).Kernel 0 = 1 ∧
    sinc 0 = 1 ∧
    (∀ x : ℝ, x ≠ 0 → sinc x = Real.sin (Real.pi * x) / (Real.pi * x)) := by
  have hR0 : (0 : ℝ) < (R : ℝ) := by exact_mod_cast (by omega : (0:ℤ) < R)
  refine ⟨?_, ?_, ?_, if_pos rfl, fun x hx => if_neg hx⟩
  · intro v hv
    rw [Lanczos.Kernel]
    exact if_pos hv
  · intro v hv
    rw [Lanczos.Kernel]
    exact if_neg (not_lt.mpr hv)
  · rw [Lanczos.Kernel]
    simp only [abs_zero]
    rw [if_pos hR0, zero_div]
    simp [sinc]

/-- C10 witness: at radius 3 the kernel is `0` at `v = 5` and `1` at `v = 0`. -/
theorem C10_witness :
    (1:ℤ) ≤ 3 ∧ ((3:ℤ) : ℝ) ≤ |(5:ℝ)| ∧
      (Lanczos.mk 3).Kernel 5 = 0 ∧ (Lanczos.mk 3).Kernel 0 = 1 := by
  have h5 : ((3:ℤ) : ℝ) ≤ |(5:ℝ)| := by
    rw [abs_of_nonneg (by norm_num : (0:ℝ) ≤ 5)]; norm_num
  exact ⟨by norm_num, h5,
    (C10_lanczos_kernel_formula 3 (by norm_num)).2.1 5 h5,
    (C10_lanczos_kernel_formula 3 (by norm_num)).2.2.1⟩

/-- The clamp of resize.go lines 99-119 stays at or above `0`. -/
theorem clampChannel_nonneg (x : ℝ) : 0 ≤ clampChannel x := by
  rw [clampChannel]
  split_ifs <;> linarith

/-- The clamp of resize.go lines 99-119 stays at or below `65535`. -/
theorem clampChannel_le (x : ℝ) : clampChannel x ≤ 65535 := by
  rw [clampChannel]
  split_ifs <;> linarith

/-- C2: for every valid source raster, `resize(src, src.width, src.height)`
succeeds through the direct-copy path of `resizeVertical` — no weight table
is built and no filtering is applied — and the result has the source's
dimensions and exactly the source's channel values at every coordinate. -/
theorem C2_resize_identity (src : Raster) (hw : 0 < src.width) (hh : 0 < src.height) :
    ∃ dst, Resize (some src) src.width src.height = Except.ok dst ∧
      dst.width = src.width ∧ dst.height = src.height ∧
      ∀ x y, dst.pixel x y = src.pixel x y := by
  refine ⟨⟨src.width, src.height, fun x y => src.pixel x y⟩, ?_, rfl, rfl, fun x y => rfl⟩
  have hdim : ¬(src.width ≤ 0 ∨ src.height ≤ 0) := by omega
  simp only [Resize]
  rw [if_neg hdim]
  rw [if_neg (by simp : ¬(src.width ≠ src.width ∧ src.height ≠ src.height))]
  rw [if_neg (by simp : ¬src.width ≠ src.width)]
  rw [resizeVertical, if_pos rfl]

/-- C2 witness: the identity resize of the concrete 1-by-1 raster. -/
theorem C2_witness :
    (0:ℤ) < sampleRaster.width ∧ (0:ℤ) < sampleRaster.height ∧
    ∃ dst, Resize (some sampleRaster) sampleRaster.width sampleRaster.height = Except.ok dst ∧
      dst.width = sampleRaster.width ∧ dst.height = sampleRaster.height ∧
      ∀ x y, dst.pixel x y = sampleRaster.pixel x y :=
  ⟨by decide, by decide, C2_resize_identity sampleRaster (by decide) (by decide)⟩

/-- C7: on the filtered (non-copy) path of either axis pass, every channel of
every output pixel is the clamp of the accumulated weighted sum, hence lies
in `[0, 65535]` — for arbitrary source channel values, including ones a
negative Lanczos side-lobe pushes outside that range. -/
theorem C7_output_channels_clamped (src : Raster) (len : ℤ) :
    (∀ dst, src.height ≠ len → resizeVertical src len = Except.ok dst →
      ∀ x y, pixelInRange (dst.pixel x y)) ∧
    (∀ dst, src.width ≠ len → resizeHorizontal src len = Except.ok dst →
      ∀ x y, pixelInRange (dst.pixel x y)) := by
  constructor
  · intro dst hne hok x y
    rw [resizeVertical, if_neg hne] at hok
    rcases hcw : calculateWeights src.height len 3 with _ | table
    · rw [hcw] at hok
      exact absurd hok (by simp)
    · rw [hcw] at hok
      simp only [Except.ok.injEq] at hok
      subst hok
      exact ⟨clampChannel_nonneg _, clampChannel_le _, clampChannel_nonneg _,
        clampChannel_le _, clampChannel_nonneg _, clampChannel_le _,
        clampChannel_nonneg _, clampChannel_le _⟩
  · intro dst hne hok x y
    rw [resizeHorizontal, if_neg hne] at hok
    rcases hcw : calculateWeights src.width len 3 with _ | table
    · rw [hcw] at hok
      exact absurd hok (by simp)
    · rw [hcw] at hok
      simp only [Except.ok.injEq] at hok
      subst hok
      exact ⟨clampChannel_nonneg _, clampChannel_le _, clampChannel_nonneg _,
        clampChannel_le _, clampChannel_nonneg _, clampChannel_le _,
        clampChannel_nonneg _, clampChannel_le _⟩

/-- C7 witness: stretching the concrete 1-by-1 raster to height 2 goes
through the filtered vertical path and yields in-range channels. -/
theorem C7_witness :
    sampleRaster.height ≠ 2 ∧
    ∃ dst, resizeVertical sampleRaster 2 = Except.ok dst ∧ pixelInRange (dst.pixel 0 0) := by
  refine ⟨by decide, ?_⟩
  obtain ⟨dst, hdst⟩ : ∃ dst, resizeVertical sampleRaster 2 = Except.ok dst := ⟨_, rfl⟩
  exact ⟨dst, hdst,
    (C7_output_channels_clamped sampleRaster 2).1 dst (by decide) hdst 0 0⟩

/-- The only error `resizeVertical` produces is the weight-table failure. -/
theorem resizeVertical_error (src : Raster) (len : ℤ) (e : ResizeError)
    (h2 : resizeVertical src len = Except.error e) :
    e = ResizeError.weightTableUnavailable := by
  rw [resizeVertical] at h2
  by_cases hcopy : src.height = len
  · rw [if_pos hcopy] at h2
    exact absurd h2 (by simp)
  · rw [if_neg hcopy] at h2
    rcases hcw : calculateWeights src.height len 3 with _ | table
    · rw [hcw] at h2
      injection h2 with h3
      exact h3.symm
    · rw [hcw] at h2
      exact absurd h2 (by simp)

/-- The only error `resizeHorizontal` produces is the weight-table failure. -/
theorem resizeHorizontal_error (src : Raster) (len : ℤ) (e : ResizeError)
    (h2 : resizeHorizontal src len = Except.error e) :
    e = ResizeError.weightTableUnavailable := by
  rw [resizeHorizontal] at h2
  by_cases hcopy : src.width = len
  · rw [if_pos hcopy] at h2
    exact absurd h2 (by simp)
  · rw [if_neg hcopy] at h2
    rcases hcw : calculateWeights src.width len 3 with _ | table
    · rw [hcw] at h2
      injection h2 with h3
      exact h3.symm
    · rw [hcw] at h2
      exact absurd h2 (by simp)

/-- Classification of every failure of `Resize` on a present source: either
the dimension check fired, or a pass reported the weight-table failure. -/
theorem Resize_some_error (src : Raster) (w h : ℤ) (e : ResizeError)
    (h2 : Resize (some src) w h = Except.error e) :
    (e = ResizeError.invalidDimension ∧ (w ≤ 0 ∨ h ≤ 0)) ∨
      e = ResizeError.weightTableUnavailable := by
  rw [Resize] at h2
  split_ifs at h2 with hd hb hw2
  · injection h2 with h3
    exact Or.inl ⟨h3.symm, hd⟩
  · rcases hH : resizeHorizontal src w with eH | inter
    · rw [hH] at h2
      injection h2 with h3
      exact Or.inr (h3 ▸ resizeHorizontal_error src w eH hH)
    · rw [hH] at h2
      exact Or.inr (resizeVertical_error inter h e h2)
  · exact Or.inr (resizeHorizontal_error src w e h2)
  · exact Or.inr (resizeVertical_error src h e h2)

/-- C8: `Resize` fails with the nil-source error exactly when the source is
absent (the nil check precedes the dimension check, so this holds for every
`w`, `h`); with a source present it fails with the invalid-dimension error
exactly when `w ≤ 0` or `h ≤ 0`; and `calculateWeights` signals failure
(returns `none`, Go `nil`) exactly when an axis length is `≤ 0`.  No raster
accompanies any failure, since `Except.error` carries none. -/
theorem C8_error_contract :
    (∀ w h : ℤ, Resize none w h = Except.error ResizeError.nilSource) ∧
    (∀ src w h, Resize (some src) w h = Except.error ResizeError.nilSource → False) ∧
    (∀ (src : Raster) (w h : ℤ), (w ≤ 0 ∨ h ≤ 0) →
      Resize (some src) w h = Except.error ResizeError.invalidDimension) ∧
    (∀ src w h, Resize (some src) w h = Except.error ResizeError.invalidDimension →
      (w ≤ 0 ∨ h ≤ 0)) ∧
    (∀ srcSize dstSize radius : ℤ,
      calculateWeights srcSize dstSize radius = none ↔ (srcSize ≤ 0 ∨ dstSize ≤ 0)) := by
  refine ⟨fun w h => rfl, ?_, ?_, ?_, ?_⟩
  · intro src w h h2
    rcases Resize_some_error src w h ResizeError.nilSource h2 with ⟨h3, _⟩ | h3 <;>
      exact absurd h3 (by simp)
  · intro src w h hle
    rw [Resize, if_pos hle]
  · intro src w h h2
    rcases Resize_some_error src w h ResizeError.invalidDimension h2 with ⟨_, h4⟩ | h3
    · exact h4
    · exact absurd h3 (by simp)
  · intro srcSize dstSize radius
    rw [calculateWeights]
    split_ifs with hc
    · simp [hc]
    · simp [hc]

/-- C8 witness: the concrete error cases named by the spec. -/
theorem C8_witness :
    Resize none 10 10 = Except.error ResizeError.nilSource ∧
    Resize (some sampleRaster) 0 5 = Except.error ResizeError.invalidDimension ∧
    Resize (some sampleRaster) 5 (-1) = Except.error ResizeError.invalidDimension ∧
    calculateWeights 0 5 3 = none :=
  ⟨C8_error_contract.1 10 10,
   C8_error_contract.2.2.1 sampleRaster 0 5 (Or.inl (by norm_num)),
   C8_error_contract.2.2.1 sampleRaster 5 (-1) (Or.inr (by norm_num)),
   (C8_error_contract.2.2.2.2 0 5 3).mpr (Or.inl (by norm_num))⟩

/-- C9: with a present source and valid target dimensions, `Resize` runs the
horizontal pass and then the vertical pass on its intermediate when both
dimensions differ, the horizontal pass alone when only the width differs,
and the vertical pass alone otherwise — which degenerates to a direct copy
when the height matches too. -/
theorem C9_pass_structure (src : Raster) (w h : ℤ) (hw : 0 < w) (hh : 0 < h) :
    (src.width ≠ w → src.height ≠ h →
      Resize (some src) w h =
        (match resizeHorizontal src w with
         | Except.error e => Except.error e
         | Except.ok inter => resizeVertical inter h)) ∧
    (src.width ≠ w → src.height = h → Resize (some src) w h = resizeHorizontal src w) ∧
    (src.width = w → Resize (some src) w h = resizeVertical src h) ∧
    (src.width = w → src.height = h →
      Resize (some src) w h = Except.ok ⟨w, h, fun x y => src.pixel x y⟩) := by
  have hdim : ¬(w ≤ 0 ∨ h ≤ 0) := by omega
  refine ⟨?_, ?_, ?_, ?_⟩
  · intro h1 h2
    rw [Resize, if_neg hdim, if_pos ⟨h1, h2⟩]
  · intro h1 h2
    rw [Resize, if_neg hdim, if_neg (fun hc => hc.2 h2), if_pos h1]
  · intro h1
    rw [Resize, if_neg hdim, if_neg (fun hc => hc.1 h1), if_neg (not_not_intro h1)]
  · intro h1 h2
    subst h1
    subst h2
    rw [Resize, if_neg hdim, if_neg (fun hc => hc.1 rfl), if_neg (not_not_intro rfl),
      resizeVertical, if_pos rfl]

/-- C9 witness: concrete instances of the two-pass, single-pass and
degenerate-copy routes. -/
theorem C9_witness :
    raster13x5.width ≠ 8 ∧ raster13x5.height ≠ 4 ∧
    Resize (some raster13x5) 8 4 =
      (match resizeHorizontal raster13x5 8 with
       | Except.error e => Except.error e
       | Except.ok inter => resizeVertical inter 4) ∧
    Resize (some sampleRaster) 1 1 = resizeVertical sampleRaster 1 ∧
    Resize (some sampleRaster) 1 1 =
      Except.ok ⟨1, 1, fun x y => sampleRaster.pixel x y⟩ :=
  ⟨by decide, by decide,
   (C9_pass_structure raster13x5 8 4 (by norm_num) (by norm_num)).1 (by decide) (by decide),
   (C9_pass_structure sampleRaster 1 1 (by norm_num) (by norm_num)).2.2.1 rfl,
   (C9_pass_structure sampleRaster 1 1 (by norm_num) (by norm_num)).2.2.2 rfl rfl⟩

/-- The scale factor of a valid axis pair is positive. -/
theorem scaleQ_pos (srcLen dstLen : ℤ) (hs : 1 ≤ srcLen) (hd : 1 ≤ dstLen) :
    0 < scaleQ srcLen dstLen := by
  rw [scaleQ]
  have h1 : (0:ℚ) < (srcLen : ℚ) := by exact_mod_cast (by omega : (0:ℤ) < srcLen)
  have h2 : (0:ℚ) < (dstLen : ℚ) := by exact_mod_cast (by omega : (0:ℤ) < dstLen)
  exact div_pos h1 h2

/-- The support radius is nonnegative for a nonnegative kernel radius. -/
theorem supportQ_nonneg (srcLen dstLen radius : ℤ) (hs : 1 ≤ srcLen) (hd : 1 ≤ dstLen)
    (hr : 0 ≤ radius) : 0 ≤ supportQ srcLen dstLen radius := by
  have hrq : (0:ℚ) ≤ (radius : ℚ) := by exact_mod_cast hr
  rw [supportQ]
  split_ifs with h1
  · exact mul_nonneg hrq (scaleQ_pos srcLen dstLen hs hd).le
  · exact hrq

/-- The center of any destination index is strictly above `-1/2`. -/
theorem centerQ_gt (srcLen dstLen d : ℤ) (hs : 1 ≤ srcLen) (hd : 1 ≤ dstLen)
    (h0 : 0 ≤ d) : -(1/2 : ℚ) < centerQ srcLen dstLen d := by
  rw [centerQ]
  have hdq : (0:ℚ) ≤ (d : ℚ) := by exact_mod_cast h0
  have hsc := scaleQ_pos srcLen dstLen hs hd
  nlinarith [mul_pos (by linarith : (0:ℚ) < (d : ℚ) + 1/2) hsc]

/-- The center of an in-range destination index is strictly below `srcLen`. -/
theorem centerQ_lt (srcLen dstLen d : ℤ) (hs : 1 ≤ srcLen) (hd : 1 ≤ dstLen)
    (hdl : d < dstLen) : centerQ srcLen dstLen d < (srcLen : ℚ) := by
  rw [centerQ, scaleQ]
  have h1 : (0:ℚ) < (srcLen : ℚ) := by exact_mod_cast (by omega : (0:ℤ) < srcLen)
  have h2 : (0:ℚ) < (dstLen : ℚ) := by exact_mod_cast (by omega : (0:ℤ) < dstLen)
  have hdd : (d:ℚ) + 1/2 ≤ (dstLen : ℚ) - 1/2 := by
    have : (d:ℚ) ≤ (dstLen : ℚ) - 1 := by exact_mod_cast (by omega : d ≤ dstLen - 1)
    linarith
  have hkey : ((dstLen : ℚ) - 1/2) * ((srcLen : ℚ) / (dstLen : ℚ)) =
      (srcLen : ℚ) - (srcLen : ℚ) / (2 * (dstLen : ℚ)) := by
    field_simp
    ring
  have hmono : ((d:ℚ) + 1/2) * ((srcLen : ℚ) / (dstLen : ℚ)) ≤
      ((dstLen : ℚ) - 1/2) * ((srcLen : ℚ) / (dstLen : ℚ)) :=
    mul_le_mul_of_nonneg_right hdd (div_pos h1 h2).le
  have hfrac : (0:ℚ) < (srcLen : ℚ) / (2 * (dstLen : ℚ)) := div_pos h1 (by linarith)
  linarith [hkey ▸ hmono]

/-- The clamped right endpoint stays below the source length. -/
theorem rightIdx_lt (srcLen dstLen radius d : ℤ) :
    rightIdx srcLen dstLen radius d < srcLen := by
  rw [rightIdx]
  split_ifs with h1 <;> omega

/-- The clamped left endpoint is nonnegative. -/
theorem leftIdx_nonneg (srcLen dstLen radius d : ℤ) :
    0 ≤ leftIdx srcLen dstLen radius d :=
  le_max_left 0 _

/-- C4: for every valid axis pair, kernel radius and in-range destination
index, the code's truncate-then-clamp endpoints coincide with the spec's
`floor(center ± support)` clamped into `[0, sourceLen - 1]`, and every
source index the axis resampler reads lies in `[0, sourceLen - 1]`. -/
theorem C4_clipped_range (srcLen dstLen radius d : ℤ)
    (hs : 1 ≤ srcLen) (hd : 1 ≤ dstLen) (h0 : 0 ≤ d) (hdl : d < dstLen)
    (hr : 1 ≤ radius) :
    leftIdx srcLen dstLen radius d = specLeft srcLen dstLen radius d ∧
    rightIdx srcLen dstLen radius d = specRight srcLen dstLen radius d ∧
    ∀ s ∈ readIndices srcLen dstLen radius d, 0 ≤ s ∧ s < srcLen := by
  have hcg := centerQ_gt srcLen dstLen d hs hd h0
  have hcl := centerQ_lt srcLen dstLen d hs hd hdl
  have hsupp := supportQ_nonneg srcLen dstLen radius hs hd (by omega : 0 ≤ radius)
  refine ⟨?_, ?_, ?_⟩
  · rw [leftIdx, specLeft, goInt]
    by_cases hx : 0 ≤ centerQ srcLen dstLen d - supportQ srcLen dstLen radius
    · rw [if_pos hx]
      have hlt : ⌊centerQ srcLen dstLen d - supportQ srcLen dstLen radius⌋ < srcLen :=
        Int.floor_lt.mpr (by linarith)
      rw [min_eq_right (by omega)]
    · rw [if_neg hx]
      push_neg at hx
      have hceil : ⌈centerQ srcLen dstLen d - supportQ srcLen dstLen radius⌉ ≤ 0 :=
        Int.ceil_le.mpr (by push_cast; linarith)
      have hfl : ⌊centerQ srcLen dstLen d - supportQ srcLen dstLen radius⌋ < 0 :=
        Int.floor_lt.mpr (by push_cast; linarith)
      rw [min_eq_right (by omega), max_eq_left hceil, max_eq_left (by omega)]
  · rw [rightIdx, specRight, goInt]
    by_cases hx : 0 ≤ centerQ srcLen dstLen d + supportQ srcLen dstLen radius
    · rw [if_pos hx]
      have hfl0 : 0 ≤ ⌊centerQ srcLen dstLen d + supportQ srcLen dstLen radius⌋ :=
        Int.le_floor.mpr (by push_cast; linarith)
      by_cases hbig : srcLen ≤ ⌊centerQ srcLen dstLen d + supportQ srcLen dstLen radius⌋
      · rw [if_pos hbig, min_eq_left (by omega), max_eq_right (by omega)]
      · rw [if_neg hbig, min_eq_right (by omega), max_eq_right hfl0]
    · rw [if_neg hx]
      push_neg at hx
      have hceil0 : ⌈centerQ srcLen dstLen d + supportQ srcLen dstLen radius⌉ = 0 := by
        have h1 : ⌈centerQ srcLen dstLen d + supportQ srcLen dstLen radius⌉ ≤ 0 :=
          Int.ceil_le.mpr (by push_cast; linarith)
        have h2 : (-1 : ℤ) < ⌈centerQ srcLen dstLen d + supportQ srcLen dstLen radius⌉ :=
          Int.lt_ceil.mpr (by push_cast; linarith)
        omega
      have hfl : ⌊centerQ srcLen dstLen d + supportQ srcLen dstLen radius⌋ = -1 := by
        have h1 : ⌊centerQ srcLen dstLen d + supportQ srcLen dstLen radius⌋ < 0 :=
          Int.floor_lt.mpr (by push_cast; linarith)
        have h2 : (-1 : ℤ) ≤ ⌊centerQ srcLen dstLen d + supportQ srcLen dstLen radius⌋ :=
          Int.le_floor.mpr (by push_cast; linarith)
        omega
      rw [hceil0, if_neg (by omega : ¬ srcLen ≤ 0), hfl,
        min_eq_right (by omega), max_eq_left (by omega)]
  · intro s hsm
    rw [readIndices] at hsm
    simp only [List.mem_map, List.mem_range] at hsm
    obtain ⟨i, hi, rfl⟩ := hsm
    have hi2 : (i : ℤ) < iterCount srcLen dstLen radius d := by omega
    have hcount : (i : ℤ) < contribCount srcLen dstLen radius d :=
      lt_of_lt_of_le hi2 (by rw [iterCount]; exact min_le_left _ _)
    have hL := leftIdx_nonneg srcLen dstLen radius d
    have hR := rightIdx_lt srcLen dstLen radius d
    rw [contribCount] at hcount
    omega

/-- C4 witness: a concrete upsampling column, 4 source pixels to 8. -/
theorem C4_witness :
    (1:ℤ) ≤ 4 ∧ (1:ℤ) ≤ 8 ∧ (0:ℤ) ≤ 1 ∧ (1:ℤ) < 8 ∧ (1:ℤ) ≤ 3 ∧
    (leftIdx 4 8 3 1 = specLeft 4 8 3 1 ∧
     rightIdx 4 8 3 1 = specRight 4 8 3 1 ∧
     ∀ s ∈ readIndices 4 8 3 1, 0 ≤ s ∧ s < 4) :=
  ⟨by norm_num, by norm_num, by norm_num, by norm_num, by norm_num,
   C4_clipped_range 4 8 3 1 (by norm_num) (by norm_num) (by norm_num)
     (by norm_num) (by norm_num)⟩

/-- C6: for a valid axis pair, the builder's support equals the spec's
`radius` when `scale ≤ 1` and `radius * scale` when `scale > 1`, and each
contributing weight is the kernel at `distance / scale` when downsampling
and at `distance` otherwise, where `distance = srcIdx - center`. -/
theorem C6_support_and_kernel_argument (srcLen dstLen radius : ℤ)
    (hs : 1 ≤ srcLen) (hd : 1 ≤ dstLen) :
    supportQ srcLen dstLen radius = specSupport srcLen dstLen radius ∧
    (scaleQ srcLen dstLen ≤ 1 → supportQ srcLen dstLen radius = (radius : ℚ)) ∧
    (1 < scaleQ srcLen dstLen →
      supportQ srcLen dstLen radius = (radius : ℚ) * scaleQ srcLen dstLen) ∧
    (∀ d s : ℤ, 1 < scaleQ srcLen dstLen →
      rawWeight srcLen dstLen radius d s =
        (Lanczos.mk radius).Kernel
          (((s : ℝ) - ((centerQ srcLen dstLen d : ℚ) : ℝ)) /
            ((scaleQ srcLen dstLen : ℚ) : ℝ))) ∧
    (∀ d s : ℤ, scaleQ srcLen dstLen ≤ 1 →
      rawWeight srcLen dstLen radius d s =
        (Lanczos.mk radius).Kernel
          ((s : ℝ) - ((centerQ srcLen dstLen d : ℚ) : ℝ))) := by
  refine ⟨?_, ?_, ?_, ?_, ?_⟩
  · rw [supportQ, specSupport]
    by_cases hsc : 1 < scaleQ srcLen dstLen
    · rw [if_pos hsc, if_neg (not_le.mpr hsc)]
    · rw [if_neg hsc, if_pos (not_lt.mp hsc)]
  · intro hsc
    rw [supportQ, if_neg (not_lt.mpr hsc)]
  · intro hsc
    rw [supportQ, if_pos hsc]
  · intro d s hsc
    rw [rawWeight, if_pos hsc]
  · intro d s hsc
    rw [rawWeight, if_neg (not_lt.mpr hsc)]

/-- C6 witness: the 2-to-4 upsample and 4-to-2 downsample supports. -/
theorem C6_witness :
    (1:ℤ) ≤ 2 ∧ (1:ℤ) ≤ 4 ∧
    supportQ 2 4 3 = specSupport 2 4 3 ∧
    (scaleQ 2 4 ≤ 1 → supportQ 2 4 3 = (3 : ℚ)) ∧
    (1 < scaleQ 4 2 → supportQ 4 2 3 = (3 : ℚ) * scaleQ 4 2) :=
  ⟨by norm_num, by norm_num,
   (C6_support_and_kernel_argument 2 4 3 (by norm_num) (by norm_num)).1,
   fun h => by
     have := (C6_support_and_kernel_argument 2 4 3 (by norm_num) (by norm_num)).2.1 h
     exact_mod_cast this,
   fun h => by
     have := (C6_support_and_kernel_argument 4 2 3 (by norm_num) (by norm_num)).2.2.1 h
     exact_mod_cast this⟩

end VideoProcessor
